import Mathlib

/-
Verification of the streaming chat core of the LangGraphAgent repository.

The embedded code is:
  frontend/src/app/api/agents.ts, function chatWithAgent (lines 44-112):
    the stream transport and chunk decoder (SSE-like framing, JSON payloads);
  frontend/src/components/chat-interface.tsx, function handleSubmit
  (lines 61-164): the submission flow and the transcript reducer
  (the propsSetMessages updater, lines 84-137).

JSON values are modelled by the inductive type Json below; JSON.parse is
modelled by parseJson, a recursive-descent parser over the character list.
JSON numbers are modelled at integer precision and the fractional and
exponent forms are out of the modelled scope (rejected by the parser); no
verified property involves a numeric payload.  JavaScript truthiness,
string coercion and the binary + operator are modelled by Json.truthy,
Json.jsToStr and jsPlus.
-/

/-- A JSON value, as produced by JSON.parse. -/
inductive Json where
  | null : Json
  | bool : Bool → Json
  | num : Int → Json
  | str : String → Json
  | arr : List Json → Json
  | obj : List (String × Json) → Json

/-- JavaScript truthiness of a JSON value (undefined does not occur among
parsed values; the absent-field case is handled by Option at use sites). -/
def Json.truthy : Json → Bool
  | Json.null => false
  | Json.bool b => b
  | Json.num n => decide (n ≠ 0)
  | Json.str s => decide (s ≠ "")
  | Json.arr _ => true
  | Json.obj _ => true

/-- Strict equality of a JSON value against a string literal, as the
JavaScript === operator behaves when the right operand is a string. -/
def Json.eqStr : Json → String → Bool
  | Json.str s, t => s == t
  | _, _ => false

mutual
/-- JavaScript string coercion of a JSON value (template literal,
String(x)).  Arrays stringify by joining the coercions of their elements
with a comma, a null element contributing the empty string; objects give
the usual object placeholder. -/
def Json.jsToStr : Json → String
  | Json.null => "null"
  | Json.bool b => cond b "true" "false"
  | Json.num n => toString n
  | Json.str s => s
  | Json.arr xs => Json.jsToStrItems xs
  | Json.obj _ => "[object Object]"

/-- Comma-joined coercion of array elements, as in Array.prototype.toString. -/
def Json.jsToStrItems : List Json → String
  | [] => ""
  | [Json.null] => ""
  | [j] => Json.jsToStr j
  | Json.null :: js => "," ++ Json.jsToStrItems js
  | j :: js => Json.jsToStr j ++ "," ++ Json.jsToStrItems js
end

/-- Property access x.k on a JSON value: defined only on objects, where the
last binding of the key wins (JSON.parse keeps the last duplicate key);
none models the JavaScript undefined result. -/
def Json.getField : Json → String → Option Json
  | Json.obj fields, k => (fields.reverse.find? (fun p => p.1 == k)).map Prod.snd
  | _, _ => none

/-- JavaScript a || b for two present values. -/
def jsOr (a b : Json) : Json := if a.truthy then a else b

/-- JavaScript a || b where a is a possibly-undefined property. -/
def jsOrOpt (a : Option Json) (b : Json) : Json :=
  match a with
  | some v => jsOr v b
  | none => b

/-- Whether JavaScript + on this operand takes the string-concatenation
path (strings, and arrays/objects whose primitive coercion is a string). -/
def Json.isStringish : Json → Bool
  | Json.str _ => true
  | Json.arr _ => true
  | Json.obj _ => true
  | _ => false

/-- JavaScript numeric coercion of the non-stringish values. -/
def Json.toNumJS : Json → Int
  | Json.null => 0
  | Json.bool b => cond b 1 0
  | Json.num n => n
  | _ => 0

/-- The JavaScript binary + operator on JSON values: string concatenation
when either operand coerces to a string, numeric addition otherwise. -/
def jsPlus (a b : Json) : Json :=
  if a.isStringish || b.isStringish then Json.str (a.jsToStr ++ b.jsToStr)
  else Json.num (a.toNumJS + b.toNumJS)

/-- Skip JSON whitespace. -/
def skipWs : List Char → List Char
  | c :: cs => if c = ' ' ∨ c = '\n' ∨ c = '\t' ∨ c = '\r' then skipWs cs else c :: cs
  | [] => []

/-- Whether a character is a hexadecimal digit. -/
def isHexDigitChar (c : Char) : Bool :=
  c.isDigit || ('a' ≤ c && c ≤ 'f') || ('A' ≤ c && c ≤ 'F')

/-- Value of a hexadecimal digit. -/
def hexVal (c : Char) : Nat :=
  if c.isDigit then c.toNat - 48
  else if 'a' ≤ c ∧ c ≤ 'f' then c.toNat - 87
  else if 'A' ≤ c ∧ c ≤ 'F' then c.toNat - 55
  else 0

/-- Parse the body of a JSON string literal after the opening quote,
returning the decoded string and the input after the closing quote.
Unescaped control characters are rejected, escapes are decoded, an
unterminated literal fails. -/
def parseStrBody (acc : List Char) : List Char → Option (String × List Char)
  | '"' :: rest => some (String.mk acc.reverse, rest)
  | '\\' :: e :: rest =>
    match e with
    | '"' => parseStrBody ('"' :: acc) rest
    | '\\' => parseStrBody ('\\' :: acc) rest
    | '/' => parseStrBody ('/' :: acc) rest
    | 'n' => parseStrBody ('\n' :: acc) rest
    | 't' => parseStrBody ('\t' :: acc) rest
    | 'r' => parseStrBody ('\r' :: acc) rest
    | 'b' => parseStrBody (Char.ofNat 8 :: acc) rest
    | 'f' => parseStrBody (Char.ofNat 12 :: acc) rest
    | 'u' =>
      match rest with
      | a :: b :: c :: d :: rest2 =>
        if isHexDigitChar a ∧ isHexDigitChar b ∧ isHexDigitChar c ∧ isHexDigitChar d then
          parseStrBody
            (Char.ofNat (4096 * hexVal a + 256 * hexVal b + 16 * hexVal c + hexVal d) :: acc) rest2
        else none
      | _ => none
    | _ => none
  | c :: rest => if c.toNat < 32 then none else parseStrBody (c :: acc) rest
  | [] => none

/-- Digit run at the head of the input. -/
def takeDigits : List Char → List Char × List Char
  | c :: cs =>
    if c.isDigit then
      let p := takeDigits cs
      (c :: p.1, p.2)
    else ([], c :: cs)
  | [] => ([], [])

/-- Decimal value of a digit run. -/
def digitsToNat (acc : Nat) : List Char → Nat
  | [] => acc
  | c :: cs => digitsToNat (acc * 10 + (c.toNat - 48)) cs

/-- Parse the digits of a JSON number (integer grammar: 0, or a nonzero
leading digit).  The fractional and exponent forms are outside the
modelled scope and fail. -/
def parseNumAfter (cs : List Char) : Option (Int × List Char) :=
  let p := takeDigits cs
  match p.1 with
  | [] => none
  | d :: ds =>
    if d = '0' ∧ ds ≠ [] then none
    else
      match p.2 with
      | e :: _ =>
        if e = '.' ∨ e = 'e' ∨ e = 'E' then none
        else some ((digitsToNat 0 (d :: ds) : Int), p.2)
      | [] => some ((digitsToNat 0 (d :: ds) : Int), p.2)

mutual
/-- Recursive-descent parser for one JSON value (model of JSON.parse).
The fuel argument only bounds recursion depth; parseJson supplies enough
fuel for its input. -/
def parseVal (fuel : Nat) (cs : List Char) : Option (Json × List Char) :=
  match fuel with
  | 0 => none
  | f + 1 =>
    match skipWs cs with
    | 'n' :: 'u' :: 'l' :: 'l' :: rest => some (Json.null, rest)
    | 't' :: 'r' :: 'u' :: 'e' :: rest => some (Json.bool true, rest)
    | 'f' :: 'a' :: 'l' :: 's' :: 'e' :: rest => some (Json.bool false, rest)
    | '"' :: rest => (parseStrBody [] rest).map (fun p => (Json.str p.1, p.2))
    | '[' :: rest =>
      (match skipWs rest with
       | ']' :: rest2 => some (Json.arr [], rest2)
       | _ => parseArrItems f rest [])
    | '{' :: rest =>
      (match skipWs rest with
       | '}' :: rest2 => some (Json.obj [], rest2)
       | _ => parseObjItems f rest [])
    | '-' :: rest => (parseNumAfter rest).map (fun p => (Json.num (-p.1), p.2))
    | c :: rest =>
      if c.isDigit then (parseNumAfter (c :: rest)).map (fun p => (Json.num p.1, p.2))
      else none
    | [] => none

/-- Comma-separated items of a JSON array, after the opening bracket. -/
def parseArrItems (fuel : Nat) (cs : List Char) (acc : List Json) : Option (Json × List Char) :=
  match fuel with
  | 0 => none
  | f + 1 =>
    match parseVal f cs with
    | none => none
    | some (v, rest) =>
      match skipWs rest with
      | ',' :: rest2 => parseArrItems f rest2 (v :: acc)
      | ']' :: rest2 => some (Json.arr (v :: acc).reverse, rest2)
      | _ => none

/-- Comma-separated members of a JSON object, after the opening brace. -/
def parseObjItems (fuel : Nat) (cs : List Char) (acc : List (String × Json)) : Option (Json × List Char) :=
  match fuel with
  | 0 => none
  | f + 1 =>
    match skipWs cs with
    | '"' :: rest =>
      (match parseStrBody [] rest with
       | none => none
       | some (k, rest2) =>
         match skipWs rest2 with
         | ':' :: rest3 =>
           (match parseVal f rest3 with
            | none => none
            | some (v, rest4) =>
              match skipWs rest4 with
              | ',' :: rest5 => parseObjItems f rest5 ((k, v) :: acc)
              | '}' :: rest5 => some (Json.obj ((k, v) :: acc).reverse, rest5)
              | _ => none)
         | _ => none)
    | _ => none
end

/-- Model of JSON.parse: parse one value and require only whitespace after
it; any failure yields none (the JavaScript exception, caught at every
call site in the embedded code). -/
def parseJson (s : String) : Option Json :=
  match parseVal (2 * s.length + 2) s.data with
  | some (j, rest) => if skipWs rest = [] then some j else none
  | none => none

/-
Data model.  The Message shape follows frontend/src/lib/types.ts: role is
the string union, content/id carry whatever JSON value the code stores
there (the declared type is string; the reducer copies chunk payloads in
unchanged, so the model keeps them as Json values), tool is the optional
boolean flag (absent modelled as false, matching its use under JavaScript
truthiness), tool_name is the optional field (none models absent).
-/

/-- One entry of the visible transcript (interface Message in
frontend/src/lib/types.ts). -/
structure Message where
  role : String
  content : Json
  tool : Bool
  tool_name : Option Json
  id : Json

/-- The chunkToSend object built by chatWithAgent in
frontend/src/app/api/agents.ts lines 83-89 and delivered to onChunk as a
JSON string.  The reducer re-parses that string; since stringification
followed by parsing is the identity on these values, the hand-off is
modelled as the record itself.  tool_name is none when the field was
absent (JSON.stringify drops an undefined property). -/
structure ChunkRecord where
  id : Json
  type : Json
  content : Json
  tool_name : Option Json
  is_final : Json

/-
Chunk Decoder: chatWithAgent, frontend/src/app/api/agents.ts lines 65-104.
The read loop decodes each arriving fragment, splits it on the "\n\n"
record separator, keeps the non-blank pieces, and parses every piece that
starts with "data: "; the per-record try/catch drops a record whose JSON
fails to parse (or whose parse yields null, on which the .message access
throws) and continues with the next.  There is no carry-over buffer:
each fragment is processed on its own.

crypto.randomUUID is modelled by a supply us : Nat -> String, the k-th
emitted record drawing us k when it needs a fresh id.
-/

/-- Split on each occurrence of the two-newline separator, left to right
and non-overlapping, as JavaScript split on that separator behaves. -/
def splitNN (acc : List Char) : List Char → List (List Char)
  | '\n' :: '\n' :: rest => acc.reverse :: splitNN [] rest
  | c :: rest => splitNN (c :: acc) rest
  | [] => [acc.reverse]

/-- Model of the JavaScript split on the double-newline separator. -/
def jsSplitNN (s : String) : List String :=
  (splitNN [] s.data).map String.mk

/-- Model of JavaScript String.prototype.trim. -/
def jsTrim (s : String) : String :=
  String.mk (((s.data.dropWhile Char.isWhitespace).reverse.dropWhile Char.isWhitespace).reverse)

/-- Whether the first list is a prefix of the second. -/
def isPrefixList : List Char → List Char → Bool
  | [], _ => true
  | _ :: _, [] => false
  | p :: ps, c :: cs => p == c && isPrefixList ps cs

/-- Model of JavaScript String.prototype.startsWith. -/
def jsStartsWith (s pre : String) : Bool :=
  isPrefixList pre.data s.data

/-- Model of JavaScript String.prototype.slice from a character index. -/
def jsDropChars (n : Nat) (s : String) : String :=
  String.mk (s.data.drop n)

/-- The message-or-wrapper unwrapping, data.message || data. -/
def jsMessageData (data : Json) : Json :=
  match data.getField "message" with
  | some v => if v.truthy then v else data
  | none => data

/-- The chunkToSend construction (agents.ts lines 82-89), one decoded
record normalised into the shape delivered to the reducer. -/
def mkChunkToSend (uuid : String) (data : Json) : ChunkRecord :=
  let md := jsMessageData data
  { id := jsOrOpt (md.getField "id") (Json.str uuid),
    type := jsOrOpt (md.getField "type") (Json.str "text"),
    content := jsOrOpt (md.getField "content") (Json.str ""),
    tool_name := md.getField "tool_name",
    is_final := jsOrOpt ((data.getField "metadata").bind (fun m => m.getField "is_final"))
      (Json.bool false) }

/-- Processing of one split-off line (agents.ts lines 77-102): only lines
with the "data: " prefix are considered; the JSON after the prefix is
parsed inside the per-record try/catch, so a parse failure (or the
TypeError that a null payload raises at data.message) yields nothing and
the stream goes on. -/
def handleLine (uuid : String) (line : String) : Option ChunkRecord :=
  if jsStartsWith line "data: " then
    match parseJson (jsDropChars 6 line) with
    | some data =>
      match data with
      | Json.null => none
      | _ => some (mkChunkToSend uuid data)
    | none => none
  else none

/-- The per-fragment record split (agents.ts line 74): split on the
double-newline separator and keep the non-blank pieces. -/
def sseLines (frag : String) : List String :=
  (jsSplitNN frag).filter (fun l => jsTrim l != "")

/-- Decode the lines of one fragment, threading the uuid supply by the
count of emitted records. -/
def processLines (us : Nat → String) (k : Nat) : List String → List ChunkRecord
  | [] => []
  | l :: ls =>
    match handleLine (us k) l with
    | some c => c :: processLines us (k + 1) ls
    | none => processLines us k ls

/-- Decode one arriving fragment (the body of the while loop, agents.ts
lines 73-103). -/
def processFragment (us : Nat → String) (k : Nat) (frag : String) : List ChunkRecord :=
  processLines us k (sseLines frag)

/-- The whole read loop over the arriving fragments.  Faithful to the
source, each fragment is decoded independently: no state survives from
one fragment to the next. -/
def decodeFragments (us : Nat → String) (k : Nat) : List String → List ChunkRecord
  | [] => []
  | f :: fs =>
    let cs := processFragment us k f
    cs ++ decodeFragments us (k + cs.length) fs

/-
Transcript Reducer: the propsSetMessages updater,
frontend/src/components/chat-interface.tsx lines 84-137.
-/

/-- Lines 87-90: drop the trailing message when it is an assistant message
whose content is exactly the empty string. -/
def popPlaceholder (prev : List Message) : List Message :=
  match prev.getLast? with
  | some m =>
    if m.role == "assistant" && m.content.eqStr "" then prev.dropLast else prev
  | none => prev

/-- The fresh assistant text message of lines 118-122. -/
def newTextMsg (uuid : String) (c : ChunkRecord) : Message :=
  { role := "assistant", content := c.content, tool := false, tool_name := none,
    id := jsOr c.id (Json.str uuid) }

/-- The tool message of lines 97-103. -/
def toolMsgOf (uuid : String) (c : ChunkRecord) : Message :=
  { role := "assistant", content := c.content, tool := true, tool_name := c.tool_name,
    id := jsOr c.id (Json.str uuid) }

/-- The error message of lines 126-130. -/
def errMsgOf (uuid : String) (c : ChunkRecord) : Message :=
  { role := "assistant", content := Json.str ("Error: " ++ c.content.jsToStr),
    tool := false, tool_name := none, id := jsOr c.id (Json.str uuid) }

/-- The type dispatch of lines 92-136, applied after the placeholder
removal: tool_result pushes a tool message when the content is truthy;
text ignores falsy content, appends truthy content to a trailing
assistant non-tool message (updating its id) and otherwise pushes a new
assistant message; error always pushes an Error-prefixed message; end and
every unrecognised type fall through all branches and change nothing. -/
def dispatch (uuid : String) (ms : List Message) (c : ChunkRecord) : List Message :=
  if c.type.eqStr "tool_result" then
    if c.content.truthy then ms ++ [toolMsgOf uuid c] else ms
  else if c.type.eqStr "text" then
    if !c.content.truthy then ms
    else
      match ms.getLast? with
      | some m =>
        if m.role == "assistant" && !m.tool then
          ms.dropLast ++
            [{ m with
                content := jsPlus (jsOr m.content (Json.str "")) c.content,
                id := jsOr c.id (jsOr m.id (Json.str uuid)) }]
        else ms ++ [newTextMsg uuid c]
      | none => ms ++ [newTextMsg uuid c]
  else if c.type.eqStr "error" then ms ++ [errMsgOf uuid c]
  else ms

/-- The transcript reducer: one chunk applied to the prior transcript
(chat-interface.tsx lines 84-137).  uuid models the at most one
crypto.randomUUID value a single application can draw. -/
def reducer (uuid : String) (prev : List Message) (c : ChunkRecord) : List Message :=
  dispatch uuid (popPlaceholder prev) c

/-- Fold a list of chunk records through the reducer in arrival order,
drawing fresh uuids from the supply. -/
def foldChunks (us : Nat → String) (k : Nat) (ms : List Message) : List ChunkRecord → List Message
  | [] => ms
  | c :: cs => foldChunks us (k + 1) (reducer (us k) ms c) cs

/-
Submission flow: handleSubmit, chat-interface.tsx lines 61-164, after the
input guard of line 63 has passed.  The user message is appended first
(line 66); the chunks delivered by chatWithAgent are folded through the
reducer; if the transport throws -- a non-success HTTP status or a missing
body when opening the stream, or a read failure mid-stream, all of which
chatWithAgent rethrows after logging (agents.ts lines 55-63 and 108-111) --
the catch block (lines 143-152) drops a trailing empty assistant message
and appends the fixed connection-error message; the finally block always
clears the loading flag.  The flow itself returns normally in every case.
-/

/-- Outcome of one chatWithAgent call, as seen by handleSubmit: either the
stream completed and delivered these chunk records, or the transport threw
after delivering this prefix of them (the prefix is empty when the stream
never opened, e.g. on a non-success HTTP status). -/
inductive StreamOutcome where
  | ok (delivered : List ChunkRecord)
  | fail (delivered : List ChunkRecord)

/-- The user message pushed at line 65-66. -/
def userMsgOf (uid : String) (input : String) : Message :=
  { role := "user", content := Json.str input, tool := false, tool_name := none,
    id := Json.str uid }

/-- The fixed assistant message pushed by the catch block (line 150). -/
def connectionErrMsg (uuid : String) : Message :=
  { role := "assistant",
    content := Json.str "Sorry, an error occurred while connecting to the agent.",
    tool := false, tool_name := none, id := Json.str uuid }

/-- Result of one submission: the final transcript and the loading flag. -/
structure SubmitResult where
  messages : List Message
  isLoading : Bool

/-- The submission flow for one user turn (handleSubmit lines 61-164):
optimistic user append, chunk folding, catch-block recovery, finally-block
loading reset.  Totality of this function is the propagation contract:
every outcome returns a value to the caller, never an exception. -/
def handleSubmit (us : Nat → String) (uid errUuid : String) (prior : List Message)
    (input : String) (outcome : StreamOutcome) : SubmitResult :=
  let t0 := prior ++ [userMsgOf uid input]
  match outcome with
  | StreamOutcome.ok cs => { messages := foldChunks us 0 t0 cs, isLoading := false }
  | StreamOutcome.fail cs =>
    let t := foldChunks us 0 t0 cs
    { messages := popPlaceholder t ++ [connectionErrMsg errUuid], isLoading := false }

/-
Heap-level model of the reducer, for the mutation claim.  JavaScript
message objects are heap references: the transcript array holds references
into a store, [...prev] copies the array of references but not the
objects, and the text-coalescing branch (lines 114-115) assigns through
the reference of the trailing message, updating the object that the
array of the caller still points to.  The store is a list indexed by reference,
allocation appends at the end.
-/

/-- Placeholder for an out-of-range dereference (never reached on valid
states). -/
def mDefault : Message :=
  { role := "", content := Json.null, tool := false, tool_name := none, id := Json.null }

/-- Dereference a message object. -/
def getMsg (store : List Message) (r : Nat) : Message := store.getD r mDefault

/-- One heap state: the object store and the transcript array of
references. -/
structure HeapState where
  store : List Message
  refs : List Nat

/-- Lines 87-90 at the heap level: the popped copy of the reference
array. -/
def popRefs (store : List Message) (refs : List Nat) : List Nat :=
  match refs.getLast? with
  | some r =>
    if (getMsg store r).role == "assistant" && (getMsg store r).content.eqStr "" then
      refs.dropLast
    else refs
  | none => refs

/-- The reducer at the heap level (chat-interface.tsx lines 84-137): a
push allocates a fresh object, the text-coalescing branch writes through
the reference of the trailing message in place. -/
def reducerHeap (uuid : String) (st : HeapState) (c : ChunkRecord) : HeapState :=
  let newRefs := popRefs st.store st.refs
  if c.type.eqStr "tool_result" then
    if c.content.truthy then
      { store := st.store ++ [toolMsgOf uuid c], refs := newRefs ++ [st.store.length] }
    else { store := st.store, refs := newRefs }
  else if c.type.eqStr "text" then
    if !c.content.truthy then { store := st.store, refs := newRefs }
    else
      match newRefs.getLast? with
      | some r =>
        if (getMsg st.store r).role == "assistant" && !(getMsg st.store r).tool then
          { store :=
              st.store.set r
                { getMsg st.store r with
                  content := jsPlus (jsOr (getMsg st.store r).content (Json.str "")) c.content,
                  id := jsOr c.id (jsOr (getMsg st.store r).id (Json.str uuid)) },
            refs := newRefs }
        else { store := st.store ++ [newTextMsg uuid c], refs := newRefs ++ [st.store.length] }
      | none => { store := st.store ++ [newTextMsg uuid c], refs := newRefs ++ [st.store.length] }
  else if c.type.eqStr "error" then
    { store := st.store ++ [errMsgOf uuid c], refs := newRefs ++ [st.store.length] }
  else { store := st.store, refs := newRefs }

/-
Shared lemmas about the JavaScript helpers and the reducer.
-/

/-- eqStr decides equality with a string value. -/
@[simp] theorem Json.eqStr_iff (j : Json) (s : String) :
    j.eqStr s = true ↔ j = Json.str s := by
  cases j <;> simp [Json.eqStr]

theorem Json.eqStr_eq_false (j : Json) (s : String) (h : j ≠ Json.str s) :
    j.eqStr s = false := by
  cases hb : j.eqStr s
  · rfl
  · exact absurd (Json.eqStr_iff j s |>.mp hb) h

theorem jsOr_of_truthy {a : Json} (h : a.truthy = true) (b : Json) : jsOr a b = a := by
  simp [jsOr, h]

theorem Json.str_ne {a b : String} (h : a ≠ b) : Json.str a ≠ Json.str b :=
  fun he => h (Json.str.inj he)

/-- The placeholder removal does nothing when the transcript does not end
in an empty-content assistant message. -/
theorem popPlaceholder_eq_self {prev : List Message}
    (h : ∀ m, prev.getLast? = some m → m.role = "assistant" → m.content ≠ Json.str "") :
    popPlaceholder prev = prev := by
  unfold popPlaceholder
  cases hl : prev.getLast? with
  | none => rfl
  | some m =>
    have hcond : (m.role == "assistant" && m.content.eqStr "") = false := by
      cases hr : (m.role == "assistant") with
      | false => rfl
      | true =>
        have hr' : m.role = "assistant" := by simpa using hr
        have := h m hl hr'
        simp [Json.eqStr_eq_false _ _ this]
    simp [hcond]

/-- The placeholder removal drops the tail when it is an empty-content
assistant message. -/
theorem popPlaceholder_drops {prev : List Message} {m : Message}
    (hl : prev.getLast? = some m) (hr : m.role = "assistant")
    (hc : m.content = Json.str "") : popPlaceholder prev = prev.dropLast := by
  unfold popPlaceholder
  rw [hl]
  simp [hr, hc]

/-- The placeholder removal yields the transcript itself or the
transcript without its last element. -/
theorem popPlaceholder_cases (l : List Message) :
    popPlaceholder l = l ∨ popPlaceholder l = l.dropLast := by
  unfold popPlaceholder
  split
  · split
    · exact Or.inr rfl
    · exact Or.inl rfl
  · exact Or.inl rfl

theorem mem_popPlaceholder {prev : List Message} {m : Message}
    (h : m ∈ popPlaceholder prev) : m ∈ prev := by
  unfold popPlaceholder at h
  cases hl : prev.getLast? with
  | none => rw [hl] at h; exact h
  | some m0 =>
    rw [hl] at h
    dsimp only at h
    by_cases hc : (m0.role == "assistant" && m0.content.eqStr "") = true
    · rw [if_pos hc] at h
      exact List.dropLast_subset prev h
    · rw [if_neg hc] at h
      exact h

theorem append_ne_empty_right {a b : String} (h : b ≠ "") : a ++ b ≠ "" := by
  intro he
  apply h
  have hd : (a ++ b).data = [] := by rw [he]
  rw [String.data_append] at hd
  exact String.ext (by rw [(List.append_eq_nil.mp hd).2])

theorem append_ne_empty_left {a : String} (b : String) (h : a ≠ "") : a ++ b ≠ "" := by
  intro he
  apply h
  have hd : (a ++ b).data = [] := by rw [he]
  rw [String.data_append] at hd
  exact String.ext (by rw [(List.append_eq_nil.mp hd).1])

/-- The string-concatenation result of the JavaScript + is never the
empty string when the right operand is a non-empty string. -/
theorem jsPlus_str_ne_empty (a : Json) {s : String} (h : s ≠ "") :
    jsPlus a (Json.str s) ≠ Json.str "" := by
  unfold jsPlus
  have : (a.isStringish || (Json.str s).isStringish) = true := by
    simp [Json.isStringish]
  rw [this]
  simp only [if_true]
  intro he
  exact append_ne_empty_right h (Json.str.inj he)

/-- Where a member of the dispatched transcript can come from: it was
already present, or it is the pushed tool/text/error message, or it is the
coalescing update of a previously present message. -/
theorem mem_dispatch {u : String} {ms : List Message} {c : ChunkRecord} {m : Message}
    (hm : m ∈ dispatch u ms c) :
    m ∈ ms ∨
      (m = toolMsgOf u c ∧ c.content.truthy = true) ∨
      (∃ m0, m0 ∈ ms ∧ c.content.truthy = true ∧
        m = { m0 with
              content := jsPlus (jsOr m0.content (Json.str "")) c.content,
              id := jsOr c.id (jsOr m0.id (Json.str u)) }) ∨
      (m = newTextMsg u c ∧ c.content.truthy = true) ∨
      m = errMsgOf u c := by
  unfold dispatch at hm
  by_cases h1 : c.type.eqStr "tool_result" = true
  · rw [if_pos h1] at hm
    by_cases h2 : c.content.truthy = true
    · rw [if_pos h2] at hm
      rcases List.mem_append.mp hm with hm' | hm'
      · exact Or.inl hm'
      · exact Or.inr (Or.inl ⟨List.mem_singleton.mp hm', h2⟩)
    · rw [if_neg h2] at hm
      exact Or.inl hm
  · rw [if_neg h1] at hm
    by_cases h3 : c.type.eqStr "text" = true
    · rw [if_pos h3] at hm
      by_cases h2 : c.content.truthy = true
      · rw [if_neg (show ¬((!c.content.truthy) = true) by simp [h2])] at hm
        cases hgl : ms.getLast? with
        | none =>
          rw [hgl] at hm
          dsimp only at hm
          rcases List.mem_append.mp hm with hm' | hm'
          · exact Or.inl hm'
          · exact Or.inr (Or.inr (Or.inr (Or.inl ⟨List.mem_singleton.mp hm', h2⟩)))
        | some m0 =>
          rw [hgl] at hm
          dsimp only at hm
          by_cases h4 : (m0.role == "assistant" && !m0.tool) = true
          · rw [if_pos h4] at hm
            rcases List.mem_append.mp hm with hm' | hm'
            · exact Or.inl (List.dropLast_subset ms hm')
            · refine Or.inr (Or.inr (Or.inl ⟨m0, ?_, h2, List.mem_singleton.mp hm'⟩))
              exact List.mem_of_mem_getLast? (by rw [hgl]; exact Option.mem_some_iff.mpr rfl)
          · rw [if_neg h4] at hm
            rcases List.mem_append.mp hm with hm' | hm'
            · exact Or.inl hm'
            · exact Or.inr (Or.inr (Or.inr (Or.inl ⟨List.mem_singleton.mp hm', h2⟩)))
      · rw [if_pos (show (!c.content.truthy) = true by simp [h2])] at hm
        exact Or.inl hm
    · rw [if_neg h3] at hm
      by_cases h5 : c.type.eqStr "error" = true
      · rw [if_pos h5] at hm
        rcases List.mem_append.mp hm with hm' | hm'
        · exact Or.inl hm'
        · exact Or.inr (Or.inr (Or.inr (Or.inr (List.mem_singleton.mp hm'))))
      · rw [if_neg h5] at hm
        exact Or.inl hm

/-- One reducer application never introduces an empty-content message,
for chunks whose content is a string (the declared ChunkRecord content
type). -/
theorem reducer_no_empty_content {u : String} {prev : List Message} {c : ChunkRecord}
    (hp : ∀ m ∈ prev, m.content ≠ Json.str "") (hs : ∃ s, c.content = Json.str s) :
    ∀ m ∈ reducer u prev c, m.content ≠ Json.str "" := by
  obtain ⟨s, hcs⟩ := hs
  have hp' : ∀ m ∈ popPlaceholder prev, m.content ≠ Json.str "" :=
    fun m hm => hp m (mem_popPlaceholder hm)
  intro m hm
  rcases mem_dispatch hm with hm' | ⟨he, ht⟩ | ⟨m0, hm0, ht, he⟩ | ⟨he, ht⟩ | he
  · exact hp' m hm'
  · have hsne : s ≠ "" := by
      rw [hcs] at ht
      simpa [Json.truthy] using ht
    rw [he]
    simpa [toolMsgOf, hcs] using Json.str_ne hsne
  · have hsne : s ≠ "" := by
      rw [hcs] at ht
      simpa [Json.truthy] using ht
    rw [he]
    simpa [hcs] using jsPlus_str_ne_empty (jsOr m0.content (Json.str "")) hsne
  · have hsne : s ≠ "" := by
      rw [hcs] at ht
      simpa [Json.truthy] using ht
    rw [he]
    simpa [newTextMsg, hcs] using Json.str_ne hsne
  · rw [he]
    show Json.str ("Error: " ++ c.content.jsToStr) ≠ Json.str ""
    exact fun h2 => append_ne_empty_left _ (by decide) (Json.str.inj h2)

/-
Claim theorems.
-/

/-- C1, counterexample.  The claim states that the decoder buffers across
network fragments, so that the record split into the two fragments
"data: \x7b\"type\":\"te" and "xt\",\"content\":\"hi\"\x7d\n\n" yields
exactly one ChunkRecord with type text and content hi.  On the code the
two fragments yield no record at all: the first half fails to parse and
is dropped, the second half lacks the data prefix and is skipped.  The
second conjunct shows the very same bytes do yield the claimed single
record when they arrive inside one fragment, so it is precisely the
fragment boundary that loses the record. -/
theorem c1_counterexample :
    decodeFragments (fun _ => "u") 0
        ["data: \x7b\"type\":\"te", "xt\",\"content\":\"hi\"\x7d\n\n"] = [] ∧
      decodeFragments (fun _ => "u") 0
        ["data: \x7b\"type\":\"te" ++ "xt\",\"content\":\"hi\"\x7d\n\n"] =
        [{ id := Json.str "u", type := Json.str "text", content := Json.str "hi",
           tool_name := none, is_final := Json.bool false }] :=
  ⟨rfl, rfl⟩

/-- C1, amended.  The decoder keeps no buffer between fragments: decoding
a stream is decoding each fragment independently and concatenating the
results (first conjunct: the fragment list splits arbitrarily with no
state carried over except the count of emitted records that numbers the
fresh ids), and in particular the spec example record, split across two
fragments, is lost entirely, while the same record inside one fragment is
decoded (second and third conjuncts). -/
theorem c1_theorem :
    (∀ (us : Nat → String) (k : Nat) (fs1 fs2 : List String),
        decodeFragments us k (fs1 ++ fs2) =
          decodeFragments us k fs1 ++
            decodeFragments us (k + (decodeFragments us k fs1).length) fs2) ∧
      (∀ us : Nat → String,
        decodeFragments us 0 ["data: \x7b\"type\":\"te", "xt\",\"content\":\"hi\"\x7d\n\n"] = []) ∧
      (∀ us : Nat → String,
        decodeFragments us 0 ["data: \x7b\"type\":\"te" ++ "xt\",\"content\":\"hi\"\x7d\n\n"] =
          [{ id := Json.str (us 0), type := Json.str "text", content := Json.str "hi",
             tool_name := none, is_final := Json.bool false }]) := by
  refine ⟨?_, fun us => rfl, fun us => rfl⟩
  intro us k fs1 fs2
  induction fs1 generalizing k with
  | nil => simp [decodeFragments]
  | cons f fs ih =>
    simp only [List.cons_append, decodeFragments]
    rw [show fs.append fs2 = fs ++ fs2 from rfl, ih]
    simp [List.length_append, Nat.add_assoc]

/-- C4.  An error-typed chunk first drops the trailing message when that
message is an assistant message with empty content, then appends a new
assistant message whose content is the string Error: followed by the
chunk content (chat-interface.tsx lines 87-90 and 125-130). -/
theorem c4_theorem (prev : List Message) (c : ChunkRecord) (u : String)
    (h : c.type = Json.str "error") :
    reducer u prev c =
      popPlaceholder prev ++
        [{ role := "assistant", content := Json.str ("Error: " ++ c.content.jsToStr),
           tool := false, tool_name := none, id := jsOr c.id (Json.str u) }] := by
  unfold reducer dispatch
  rw [h]
  simp [Json.eqStr, errMsgOf]

/-- C4, witness: from the empty transcript, an error chunk with content
boom yields exactly one assistant message with content Error: boom. -/
theorem c4_witness :
    reducer "u" []
        { id := Json.str "e1", type := Json.str "error", content := Json.str "boom",
          tool_name := none, is_final := Json.bool false } =
      [{ role := "assistant", content := Json.str "Error: boom", tool := false,
         tool_name := none, id := Json.str "e1" }] := by
  have h := c4_theorem []
      { id := Json.str "e1", type := Json.str "error", content := Json.str "boom",
        tool_name := none, is_final := Json.bool false } "u" rfl
  simpa using h

/-- C10.  Every chunk, of any type, is dispatched against the transcript
with its trailing empty-content assistant message removed; in particular
an empty-content text chunk then leaves exactly that shrunk transcript. -/
theorem c10_theorem (prev : List Message) (m : Message) (c : ChunkRecord) (u : String)
    (hl : prev.getLast? = some m) (hr : m.role = "assistant")
    (hc : m.content = Json.str "") :
    reducer u prev c = dispatch u prev.dropLast c ∧
      (c.type = Json.str "text" → c.content = Json.str "" →
        reducer u prev c = prev.dropLast) := by
  have hpop : popPlaceholder prev = prev.dropLast := popPlaceholder_drops hl hr hc
  constructor
  · unfold reducer
    rw [hpop]
  · intro ht hcc
    unfold reducer dispatch
    rw [hpop, ht, hcc]
    simp [Json.eqStr, Json.truthy]

/-- C10, witness: an empty-content text chunk applied to the transcript
holding one empty assistant message empties the transcript. -/
theorem c10_witness :
    reducer "u"
        [{ role := "assistant", content := Json.str "", tool := false, tool_name := none,
           id := Json.str "i" }]
        { id := Json.str "j", type := Json.str "text", content := Json.str "",
          tool_name := none, is_final := Json.bool false } = [] := by
  have h := (c10_theorem
      [{ role := "assistant", content := Json.str "", tool := false, tool_name := none,
         id := Json.str "i" }]
      { role := "assistant", content := Json.str "", tool := false, tool_name := none,
        id := Json.str "i" }
      { id := Json.str "j", type := Json.str "text", content := Json.str "",
        tool_name := none, is_final := Json.bool false } "u" rfl rfl rfl).2 rfl rfl
  simpa using h

/-- C2, counterexample.  The claim states that an empty-content text chunk
leaves every transcript unchanged.  On the transcript holding a single
assistant message with empty content, the reducer first removes that
placeholder (lines 87-90), so the empty-content text chunk shrinks the
transcript to nothing instead of leaving it unchanged. -/
theorem c2_counterexample :
    reducer "u"
        [{ role := "assistant", content := Json.str "", tool := false, tool_name := none,
           id := Json.str "i" }]
        { id := Json.str "j", type := Json.str "text", content := Json.str "",
          tool_name := none, is_final := Json.bool false } = [] ∧
      ([] : List Message) ≠
        [{ role := "assistant", content := Json.str "", tool := false, tool_name := none,
           id := Json.str "i" }] :=
  ⟨rfl, by simp⟩

/-- C2, amended.  Provided the transcript does not end in an assistant
message with empty content, an empty-content chunk of type text or
tool_result leaves the transcript unchanged; and for chunk streams whose
contents are strings (the declared ChunkRecord content type), a
transcript containing no empty-content message never acquires one, under
one reducer application or any fold of them. -/
theorem c2_theorem :
    (∀ (prev : List Message) (c : ChunkRecord) (u : String),
        c.type = Json.str "text" ∨ c.type = Json.str "tool_result" →
        c.content = Json.str "" →
        (∀ m, prev.getLast? = some m → m.role = "assistant" → m.content ≠ Json.str "") →
        reducer u prev c = prev) ∧
      (∀ (u : String) (prev : List Message) (c : ChunkRecord),
        (∀ m ∈ prev, m.content ≠ Json.str "") → (∃ s, c.content = Json.str s) →
        ∀ m ∈ reducer u prev c, m.content ≠ Json.str "") ∧
      (∀ (us : Nat → String) (k : Nat) (prev : List Message) (cs : List ChunkRecord),
        (∀ m ∈ prev, m.content ≠ Json.str "") →
        (∀ c ∈ cs, ∃ s, c.content = Json.str s) →
        ∀ m ∈ foldChunks us k prev cs, m.content ≠ Json.str "") := by
  refine ⟨?_, ?_, ?_⟩
  · intro prev c u htype hcc hnop
    have hpop : popPlaceholder prev = prev := popPlaceholder_eq_self hnop
    unfold reducer dispatch
    rw [hpop, hcc]
    rcases htype with ht | ht <;> rw [ht] <;> simp [Json.eqStr, Json.truthy]
  · intro u prev c hp hs
    exact reducer_no_empty_content hp hs
  · intro us k prev cs
    induction cs generalizing prev k with
    | nil => intro hp _ m hm; exact hp m hm
    | cons c cs ih =>
      intro hp hcs m hm
      have hstep := reducer_no_empty_content (u := us k) hp (hcs c (List.mem_cons_self c cs))
      exact ih (k + 1) (reducer (us k) prev c) hstep
        (fun c' hc' => hcs c' (List.mem_cons_of_mem c hc')) m hm

/-- C2, witness: on a transcript holding one non-empty user message, an
empty text chunk is a no-op, and after a text chunk with content hi no
message of the transcript is empty. -/
theorem c2_witness :
    reducer "u"
        [{ role := "user", content := Json.str "q", tool := false, tool_name := none,
           id := Json.str "i" }]
        { id := Json.str "j", type := Json.str "text", content := Json.str "",
          tool_name := none, is_final := Json.bool false } =
      [{ role := "user", content := Json.str "q", tool := false, tool_name := none,
         id := Json.str "i" }] ∧
    ∀ m ∈ foldChunks (fun _ => "u") 0
        [{ role := "user", content := Json.str "q", tool := false, tool_name := none,
           id := Json.str "i" }]
        [{ id := Json.str "j", type := Json.str "text", content := Json.str "hi",
           tool_name := none, is_final := Json.bool false }],
      m.content ≠ Json.str "" := by
  constructor
  · exact c2_theorem.1
      [{ role := "user", content := Json.str "q", tool := false, tool_name := none,
         id := Json.str "i" }]
      { id := Json.str "j", type := Json.str "text", content := Json.str "",
        tool_name := none, is_final := Json.bool false } "u" (Or.inl rfl) rfl
      (by
        intro m hm hr
        simp only [List.getLast?_singleton, Option.some.injEq] at hm
        rw [← hm]
        exact Json.str_ne (by decide))
  · exact c2_theorem.2.2 (fun _ => "u") 0 _ _
      (by
        intro m hm
        simp only [List.mem_singleton] at hm
        rw [hm]
        exact fun hc => absurd (Json.str.inj hc) (by decide))
      (by
        intro c hc
        simp only [List.mem_singleton] at hc
        exact ⟨"hi", by rw [hc]⟩)

/-- C3, counterexample.  The claim states that whenever the last message
is an assistant non-tool message, a non-empty text chunk appends to that
message.  On the transcript whose last message is an assistant message
with empty content, the reducer instead removes that message and appends
the chunk text to the preceding assistant message, producing one message
where the claim predicts two. -/
theorem c3_counterexample :
    reducer "u"
        [{ role := "assistant", content := Json.str "x", tool := false, tool_name := none,
           id := Json.str "i1" },
         { role := "assistant", content := Json.str "", tool := false, tool_name := none,
           id := Json.str "i2" }]
        { id := Json.str "j", type := Json.str "text", content := Json.str "hi",
          tool_name := none, is_final := Json.bool false } =
      [{ role := "assistant", content := Json.str "xhi", tool := false, tool_name := none,
         id := Json.str "j" }] ∧
      reducer "u"
          [{ role := "assistant", content := Json.str "x", tool := false, tool_name := none,
             id := Json.str "i1" },
           { role := "assistant", content := Json.str "", tool := false, tool_name := none,
             id := Json.str "i2" }]
          { id := Json.str "j", type := Json.str "text", content := Json.str "hi",
            tool_name := none, is_final := Json.bool false } ≠
        [{ role := "assistant", content := Json.str "x", tool := false, tool_name := none,
           id := Json.str "i1" },
         { role := "assistant", content := Json.str "hi", tool := false, tool_name := none,
           id := Json.str "j" }] := by
  exact ⟨rfl, fun h => absurd (congrArg List.length h) (by decide)⟩

/-- C3, amended.  When the last message is an assistant non-tool message
with non-empty content, a non-empty text chunk appends its content to
that message (updating its id); and provided the transcript does not end
in an empty-content assistant message, a truthy tool_result chunk and
every error chunk append one new message and leave every existing message
unchanged. -/
theorem c3_theorem :
    (∀ (init : List Message) (m : Message) (c : ChunkRecord) (u : String),
        m.role = "assistant" → m.tool = false → m.content ≠ Json.str "" →
        c.type = Json.str "text" → c.content.truthy = true →
        reducer u (init ++ [m]) c =
          init ++
            [{ m with
               content := jsPlus (jsOr m.content (Json.str "")) c.content,
               id := jsOr c.id (jsOr m.id (Json.str u)) }]) ∧
      (∀ (prev : List Message) (c : ChunkRecord) (u : String),
        c.type = Json.str "tool_result" → c.content.truthy = true →
        (∀ m, prev.getLast? = some m → m.role = "assistant" → m.content ≠ Json.str "") →
        reducer u prev c = prev ++ [toolMsgOf u c]) ∧
      (∀ (prev : List Message) (c : ChunkRecord) (u : String),
        c.type = Json.str "error" →
        (∀ m, prev.getLast? = some m → m.role = "assistant" → m.content ≠ Json.str "") →
        reducer u prev c = prev ++ [errMsgOf u c]) := by
  refine ⟨?_, ?_, ?_⟩
  · intro init m c u hr htool hcne htype htr
    have hpop : popPlaceholder (init ++ [m]) = init ++ [m] := by
      apply popPlaceholder_eq_self
      intro m' hm' _
      rw [List.getLast?_concat] at hm'
      rw [← Option.some.inj hm']
      exact hcne
    unfold reducer dispatch
    rw [hpop]
    rw [if_neg (by rw [htype]; decide)]
    rw [if_pos (by rw [htype]; decide)]
    rw [if_neg (by rw [htr]; decide)]
    rw [List.getLast?_concat]
    dsimp only
    rw [if_pos (by rw [hr, htool]; decide)]
    rw [List.dropLast_concat]
  · intro prev c u htype htr hnop
    have hpop : popPlaceholder prev = prev := popPlaceholder_eq_self hnop
    unfold reducer dispatch
    rw [hpop, htype]
    simp [Json.eqStr, htr]
  · intro prev c u htype hnop
    have hpop : popPlaceholder prev = prev := popPlaceholder_eq_self hnop
    unfold reducer dispatch
    rw [hpop, htype]
    simp [Json.eqStr]

/-- C3, witness: a text chunk lo appends to the trailing assistant
message Hel giving Hello; a tool_result chunk 42 from calculator and an
error chunk append new messages after a non-empty assistant tail. -/
theorem c3_witness :
    reducer "u"
        [{ role := "user", content := Json.str "q", tool := false, tool_name := none,
           id := Json.str "i1" },
         { role := "assistant", content := Json.str "Hel", tool := false, tool_name := none,
           id := Json.str "i2" }]
        { id := Json.str "j", type := Json.str "text", content := Json.str "lo",
          tool_name := none, is_final := Json.bool false } =
      [{ role := "user", content := Json.str "q", tool := false, tool_name := none,
         id := Json.str "i1" },
       { role := "assistant", content := Json.str "Hello", tool := false, tool_name := none,
         id := Json.str "j" }] ∧
      reducer "u"
          [{ role := "assistant", content := Json.str "thinking...", tool := false,
             tool_name := none, id := Json.str "i3" }]
          { id := Json.str "j2", type := Json.str "tool_result", content := Json.str "42",
            tool_name := some (Json.str "calculator"), is_final := Json.bool false } =
        [{ role := "assistant", content := Json.str "thinking...", tool := false,
           tool_name := none, id := Json.str "i3" },
         { role := "assistant", content := Json.str "42", tool := true,
           tool_name := some (Json.str "calculator"), id := Json.str "j2" }] ∧
      reducer "u"
          [{ role := "user", content := Json.str "q", tool := false, tool_name := none,
             id := Json.str "i1" }]
          { id := Json.str "j3", type := Json.str "error", content := Json.str "boom",
            tool_name := none, is_final := Json.bool false } =
        [{ role := "user", content := Json.str "q", tool := false, tool_name := none,
           id := Json.str "i1" },
         { role := "assistant", content := Json.str "Error: boom", tool := false,
           tool_name := none, id := Json.str "j3" }] := by
  refine ⟨?_, ?_, ?_⟩
  · have h := c3_theorem.1
        [{ role := "user", content := Json.str "q", tool := false, tool_name := none,
           id := Json.str "i1" }]
        { role := "assistant", content := Json.str "Hel", tool := false, tool_name := none,
          id := Json.str "i2" }
        { id := Json.str "j", type := Json.str "text", content := Json.str "lo",
          tool_name := none, is_final := Json.bool false } "u"
        rfl rfl (Json.str_ne (by decide)) rfl rfl
    exact h.trans rfl
  · have h := c3_theorem.2.1
        [{ role := "assistant", content := Json.str "thinking...", tool := false,
           tool_name := none, id := Json.str "i3" }]
        { id := Json.str "j2", type := Json.str "tool_result", content := Json.str "42",
          tool_name := some (Json.str "calculator"), is_final := Json.bool false } "u"
        rfl rfl
        (by
          intro m hm _
          simp only [List.getLast?_singleton, Option.some.injEq] at hm
          rw [← hm]
          exact Json.str_ne (by decide))
    exact h.trans rfl
  · have h := c3_theorem.2.2
        [{ role := "user", content := Json.str "q", tool := false, tool_name := none,
           id := Json.str "i1" }]
        { id := Json.str "j3", type := Json.str "error", content := Json.str "boom",
          tool_name := none, is_final := Json.bool false } "u"
        rfl
        (by
          intro m hm hr
          simp only [List.getLast?_singleton, Option.some.injEq] at hm
          rw [← hm] at hr
          exact absurd hr (by decide))
    exact h.trans rfl

/-- C6.  A record that fails to decode between two well-formed text
records is dropped and decoding continues: the fragment yields exactly
the two ChunkRecords of the well-formed records (the per-record try/catch
of agents.ts lines 78-101). -/
theorem c6_theorem (us : Nat → String) (k : Nat) (frag g1 bad g2 : String)
    (c1 c2 : ChunkRecord)
    (hsplit : sseLines frag = [g1, bad, g2])
    (h1 : handleLine (us k) g1 = some c1) (_h1t : c1.type = Json.str "text")
    (hbad : ∀ u, handleLine u bad = none)
    (h2 : handleLine (us (k + 1)) g2 = some c2) (_h2t : c2.type = Json.str "text") :
    processFragment us k frag = [c1, c2] := by
  unfold processFragment
  rw [hsplit]
  unfold processLines
  rw [h1]
  unfold processLines
  rw [hbad (us (k + 1))]
  unfold processLines
  rw [h2]
  rfl

/-- C6, witness: a concrete fragment holding a valid text record a, a
malformed record, and a valid text record b decodes to exactly the two
records a and b. -/
theorem c6_witness :
    processFragment (fun _ => "u") 0
        ("data: \x7b\"type\":\"text\",\"content\":\"a\"\x7d\n\n" ++
          "data: \x7bnope\n\n" ++ "data: \x7b\"type\":\"text\",\"content\":\"b\"\x7d\n\n") =
      [{ id := Json.str "u", type := Json.str "text", content := Json.str "a",
         tool_name := none, is_final := Json.bool false },
       { id := Json.str "u", type := Json.str "text", content := Json.str "b",
         tool_name := none, is_final := Json.bool false }] := by
  exact c6_theorem (fun _ => "u") 0 _
      "data: \x7b\"type\":\"text\",\"content\":\"a\"\x7d" "data: \x7bnope"
      "data: \x7b\"type\":\"text\",\"content\":\"b\"\x7d" _ _ rfl rfl rfl
      (fun u => rfl) rfl rfl

/-- C7, counterexample.  The claim states a chunk with a present but
unrecognised type is treated exactly as a text chunk.  With the unknown
type foo and content hi on a one-user-message transcript, the reducer
leaves the transcript unchanged, while the same chunk with type text
appends a new assistant message: the two results differ. -/
theorem c7_counterexample :
    reducer "u"
        [{ role := "user", content := Json.str "q", tool := false, tool_name := none,
           id := Json.str "i" }]
        { id := Json.str "j", type := Json.str "foo", content := Json.str "hi",
          tool_name := none, is_final := Json.bool false } =
      [{ role := "user", content := Json.str "q", tool := false, tool_name := none,
         id := Json.str "i" }] ∧
      reducer "u"
          [{ role := "user", content := Json.str "q", tool := false, tool_name := none,
             id := Json.str "i" }]
          { id := Json.str "j", type := Json.str "text", content := Json.str "hi",
            tool_name := none, is_final := Json.bool false } =
        [{ role := "user", content := Json.str "q", tool := false, tool_name := none,
           id := Json.str "i" },
         { role := "assistant", content := Json.str "hi", tool := false, tool_name := none,
           id := Json.str "j" }] ∧
      reducer "u"
          [{ role := "user", content := Json.str "q", tool := false, tool_name := none,
             id := Json.str "i" }]
          { id := Json.str "j", type := Json.str "foo", content := Json.str "hi",
            tool_name := none, is_final := Json.bool false } ≠
        reducer "u"
          [{ role := "user", content := Json.str "q", tool := false, tool_name := none,
             id := Json.str "i" }]
          { id := Json.str "j", type := Json.str "text", content := Json.str "hi",
            tool_name := none, is_final := Json.bool false } :=
  ⟨rfl, rfl, fun h => absurd (congrArg List.length h) (by decide)⟩

/-- C7, amended.  A chunk whose type is present but matches none of
text, tool_result, error and end is ignored by the reducer: it creates
and modifies no message, leaving only the placeholder removal that every
chunk triggers.  The text fallback exists only in the decoder, which
substitutes type text when the type field is absent or falsy
(agents.ts line 85). -/
theorem c7_theorem :
    (∀ (prev : List Message) (c : ChunkRecord) (u : String),
        c.type ≠ Json.str "text" → c.type ≠ Json.str "tool_result" →
        c.type ≠ Json.str "error" → c.type ≠ Json.str "end" →
        reducer u prev c = popPlaceholder prev) ∧
      (∀ (u : String) (data : Json),
        (∀ v, (jsMessageData data).getField "type" = some v → v.truthy = false) →
        (mkChunkToSend u data).type = Json.str "text") := by
  constructor
  · intro prev c u ht htr he _
    unfold reducer dispatch
    rw [if_neg (fun hb => htr (Json.eqStr_iff c.type "tool_result" |>.mp hb))]
    rw [if_neg (fun hb => ht (Json.eqStr_iff c.type "text" |>.mp hb))]
    rw [if_neg (fun hb => he (Json.eqStr_iff c.type "error" |>.mp hb))]
  · intro u data hfield
    show jsOrOpt ((jsMessageData data).getField "type") (Json.str "text") = Json.str "text"
    cases hf : (jsMessageData data).getField "type" with
    | none => rfl
    | some v =>
      unfold jsOrOpt jsOr
      dsimp only
      rw [hfield v hf]
      simp

/-- C7, witness: the unknown type foo chunk on a transcript ending in an
empty assistant placeholder removes only the placeholder, and a record
without a type field decodes with type text. -/
theorem c7_witness :
    reducer "u"
        [{ role := "user", content := Json.str "q", tool := false, tool_name := none,
           id := Json.str "i" },
         { role := "assistant", content := Json.str "", tool := false, tool_name := none,
           id := Json.str "i2" }]
        { id := Json.str "j", type := Json.str "foo", content := Json.str "hi",
          tool_name := none, is_final := Json.bool false } =
      [{ role := "user", content := Json.str "q", tool := false, tool_name := none,
         id := Json.str "i" }] ∧
      (mkChunkToSend "u" (Json.obj [("content", Json.str "x")])).type = Json.str "text" := by
  constructor
  · have h := c7_theorem.1
        [{ role := "user", content := Json.str "q", tool := false, tool_name := none,
           id := Json.str "i" },
         { role := "assistant", content := Json.str "", tool := false, tool_name := none,
           id := Json.str "i2" }]
        { id := Json.str "j", type := Json.str "foo", content := Json.str "hi",
          tool_name := none, is_final := Json.bool false } "u"
        (Json.str_ne (by decide)) (Json.str_ne (by decide)) (Json.str_ne (by decide))
        (Json.str_ne (by decide))
    exact h.trans rfl
  · exact c7_theorem.2 "u" (Json.obj [("content", Json.str "x")])
      (fun v hv => by cases hv)

/-- C9.  The reducer is deterministic on the chunks the decoder actually
produces: a reducer application consults the ambient randomness only
through the id fallbacks, each guarded by the chunk id, and every decoded
chunk carries a truthy id (its own, or the fresh one substituted by the
decoder, agents.ts line 84).  So for any chunk with a truthy id, two
applications to the same prior transcript agree exactly, ids included;
and every record the decoder emits has a truthy id whenever the ambient
uuid strings are non-empty, as crypto.randomUUID values are. -/
theorem c9_theorem :
    (∀ (prev : List Message) (c : ChunkRecord) (u1 u2 : String),
        c.id.truthy = true → reducer u1 prev c = reducer u2 prev c) ∧
      (∀ (u : String) (data : Json), u ≠ "" → (mkChunkToSend u data).id.truthy = true) := by
  constructor
  · intro prev c u1 u2 hid
    have hor : ∀ b : Json, jsOr c.id b = c.id := jsOr_of_truthy hid
    unfold reducer dispatch toolMsgOf newTextMsg errMsgOf
    simp only [hor]
  · intro u data hu
    show (jsOrOpt ((jsMessageData data).getField "id") (Json.str u)).truthy = true
    cases hf : (jsMessageData data).getField "id" with
    | none =>
      show (Json.str u).truthy = true
      simpa [Json.truthy] using hu
    | some v =>
      unfold jsOrOpt jsOr
      dsimp only
      by_cases hv : v.truthy = true
      · rw [if_pos hv]; exact hv
      · rw [if_neg hv]
        show (Json.str u).truthy = true
        simpa [Json.truthy] using hu

/-- C9, witness: two applications with different ambient uuids agree on a
chunk with an id, and a decoded record with no id field gets a truthy
fresh id. -/
theorem c9_witness :
    reducer "a"
        [{ role := "user", content := Json.str "q", tool := false, tool_name := none,
           id := Json.str "i" }]
        { id := Json.str "j", type := Json.str "text", content := Json.str "hi",
          tool_name := none, is_final := Json.bool false } =
      reducer "b"
        [{ role := "user", content := Json.str "q", tool := false, tool_name := none,
           id := Json.str "i" }]
        { id := Json.str "j", type := Json.str "text", content := Json.str "hi",
          tool_name := none, is_final := Json.bool false } ∧
      (mkChunkToSend "u" (Json.obj [("type", Json.str "text")])).id.truthy = true := by
  constructor
  · exact c9_theorem.1
      [{ role := "user", content := Json.str "q", tool := false, tool_name := none,
         id := Json.str "i" }]
      { id := Json.str "j", type := Json.str "text", content := Json.str "hi",
        tool_name := none, is_final := Json.bool false } "a" "b" rfl
  · exact c9_theorem.2 "u" (Json.obj [("type", Json.str "text")]) (by decide)

/-- C8.  When the transport throws -- the stream fails to open or the
read fails mid-stream after a prefix of chunks was delivered -- the
submission flow keeps the transcript built so far (its survivors form a
prefix of it: only a trailing empty assistant placeholder may go),
appends the fixed assistant-role connection error message as the final
entry, and clears the loading flag; the loading flag is cleared on every
outcome, and the flow, being a total function of the outcome, propagates
no exception to its caller. -/
theorem c8_theorem (us : Nat → String) (uid errUuid : String) (prior : List Message)
    (input : String) (cs : List ChunkRecord) :
    (handleSubmit us uid errUuid prior input (StreamOutcome.fail cs)).messages =
        popPlaceholder (foldChunks us 0 (prior ++ [userMsgOf uid input]) cs) ++
          [connectionErrMsg errUuid] ∧
      popPlaceholder (foldChunks us 0 (prior ++ [userMsgOf uid input]) cs) <+:
        foldChunks us 0 (prior ++ [userMsgOf uid input]) cs ∧
      (connectionErrMsg errUuid).role = "assistant" ∧
      (∀ oc, (handleSubmit us uid errUuid prior input oc).isLoading = false) := by
  refine ⟨rfl, ?_, rfl, fun oc => by cases oc <;> rfl⟩
  have hpc := popPlaceholder_cases (foldChunks us 0 (prior ++ [userMsgOf uid input]) cs)
  rcases hpc with h | h
  · rw [h]
  · rw [h]
    exact List.dropLast_prefix _

/-- C5, counterexample.  The claim states the reducer mutates no message
object of the input transcript.  At the heap level, a text chunk b
arriving while the transcript references one assistant message a updates
that message object in place (lines 114-115 assign through the reference
held by the copied array): after the step, dereferencing the very
reference held by the input transcript yields content ab, not a. -/
theorem c5_counterexample :
    (0 : Nat) ∈
        (HeapState.mk
          [{ role := "assistant", content := Json.str "a", tool := false, tool_name := none,
             id := Json.str "i" }] [0]).refs ∧
      (getMsg (reducerHeap "u"
          (HeapState.mk
            [{ role := "assistant", content := Json.str "a", tool := false, tool_name := none,
               id := Json.str "i" }] [0])
          { id := Json.str "j", type := Json.str "text", content := Json.str "b",
            tool_name := none, is_final := Json.bool false }).store 0).content ≠
        (getMsg
          [{ role := "assistant", content := Json.str "a", tool := false, tool_name := none,
             id := Json.str "i" }] 0).content :=
  ⟨List.mem_singleton.mpr rfl, fun h => absurd (Json.str.inj h) (by decide)⟩

/-- C5, amended.  The reducer returns a fresh list value and leaves every
message object of the input transcript unchanged, with one exception: a
truthy text chunk meeting an assistant non-tool message at the tail of
the (placeholder-stripped) transcript updates that one shared object in
place, to exactly the coalesced content and refreshed id of lines
114-115.  Formally, any referenced object that differs after the step is
that coalescing target, changed in exactly that way. -/
theorem c5_theorem (u : String) (st : HeapState) (c : ChunkRecord) (r : Nat)
    (_hr : r ∈ st.refs) (hrlen : r < st.store.length)
    (hne : getMsg (reducerHeap u st c).store r ≠ getMsg st.store r) :
    c.type = Json.str "text" ∧ c.content.truthy = true ∧
      (popRefs st.store st.refs).getLast? = some r ∧
      (getMsg st.store r).role = "assistant" ∧ (getMsg st.store r).tool = false ∧
      getMsg (reducerHeap u st c).store r =
        { getMsg st.store r with
          content := jsPlus (jsOr (getMsg st.store r).content (Json.str "")) c.content,
          id := jsOr c.id (jsOr (getMsg st.store r).id (Json.str u)) } := by
  have happend : ∀ x : Message, getMsg (st.store ++ [x]) r = getMsg st.store r :=
    fun x => List.getD_append _ _ _ _ hrlen
  by_cases h1 : c.type.eqStr "tool_result" = true
  · exfalso
    apply hne
    show getMsg (reducerHeap u st c).store r = getMsg st.store r
    simp only [reducerHeap]
    rw [if_pos h1]
    by_cases h2 : c.content.truthy = true
    · rw [if_pos h2]
      exact happend _
    · rw [if_neg h2]
  · by_cases h3 : c.type.eqStr "text" = true
    · by_cases h2 : c.content.truthy = true
      · cases hgl : (popRefs st.store st.refs).getLast? with
        | none =>
          exfalso
          apply hne
          simp only [reducerHeap]
          rw [if_neg h1, if_pos h3, if_neg (by simp [h2]), hgl]
          exact happend _
        | some r0 =>
          by_cases h4 :
              ((getMsg st.store r0).role == "assistant" && !(getMsg st.store r0).tool) = true
          · have hstore : (reducerHeap u st c).store =
                st.store.set r0
                  { getMsg st.store r0 with
                    content := jsPlus (jsOr (getMsg st.store r0).content (Json.str ""))
                      c.content,
                    id := jsOr c.id (jsOr (getMsg st.store r0).id (Json.str u)) } := by
              simp only [reducerHeap]
              rw [if_neg h1, if_pos h3, if_neg (by simp [h2]), hgl]
              dsimp only
              rw [if_pos h4]
            by_cases hr0 : r = r0
            · subst hr0
              obtain ⟨hrole, htool⟩ := (Bool.and_eq_true _ _).mp h4
              refine ⟨Json.eqStr_iff c.type "text" |>.mp h3, h2, rfl, by simpa using hrole,
                by simpa using htool, ?_⟩
              rw [hstore]
              show (st.store.set r _).getD r mDefault = _
              simp [List.getD, List.getElem?_set_self', hrlen]
            · exfalso
              apply hne
              rw [hstore]
              show (st.store.set r0 _).getD r mDefault = st.store.getD r mDefault
              simp [List.getD, List.getElem?_set_ne (Ne.symm hr0)]
          · exfalso
            apply hne
            simp only [reducerHeap]
            rw [if_neg h1, if_pos h3, if_neg (by simp [h2]), hgl]
            dsimp only
            rw [if_neg h4]
            exact happend _
      · exfalso
        apply hne
        simp only [reducerHeap]
        rw [if_neg h1, if_pos h3, if_pos (by simp [h2])]
    · by_cases h5 : c.type.eqStr "error" = true
      · exfalso
        apply hne
        simp only [reducerHeap]
        rw [if_neg h1, if_neg h3, if_pos h5]
        exact happend _
      · exfalso
        apply hne
        simp only [reducerHeap]
        rw [if_neg h1, if_neg h3, if_neg h5]

/-- C5, witness: on the one-assistant-message heap, the text chunk b is
the coalescing case: the object referenced by the input transcript is
rewritten in place to content ab with the chunk id. -/
theorem c5_witness :
    getMsg (reducerHeap "u"
        (HeapState.mk
          [{ role := "assistant", content := Json.str "a", tool := false, tool_name := none,
             id := Json.str "i" }] [0])
        { id := Json.str "j", type := Json.str "text", content := Json.str "b",
          tool_name := none, is_final := Json.bool false }).store 0 =
      { role := "assistant", content := Json.str "ab", tool := false, tool_name := none,
        id := Json.str "j" } := by
  have h := c5_theorem "u"
      (HeapState.mk
        [{ role := "assistant", content := Json.str "a", tool := false, tool_name := none,
           id := Json.str "i" }] [0])
      { id := Json.str "j", type := Json.str "text", content := Json.str "b",
        tool_name := none, is_final := Json.bool false } 0
      (List.mem_singleton.mpr rfl) (by decide)
      (fun hq => absurd (Json.str.inj (congrArg Message.content hq)) (by decide))
  exact h.2.2.2.2.2.trans rfl
